import Mathlib

/-!
Verification development for the rag-backend of this repository.

Shallow embedding of the Python sources:
  storage.py     (paper metadata store: load/upsert on a JSON list)
  rag.py         (ingestion chunk pipeline, multi-index retrieval, citation
                  formatting, extractive fallback answer)
  bedrock_llm.py (evidence-block construction for the grounded generator)
  main.py        (ingest and chat endpoint orchestration)

External capabilities (PDF parsing, the embedding model, the FAISS index and
the Bedrock generator) are modelled as oracle parameters: a parse result, a
text splitter, a per-document similarity search that may fail to load an
index (Except), and a fallible generator.  Python floats (similarity scores)
are modelled by Int: every claim processed here concerns ordering and
structure of scores, never float arithmetic.  Python strings are lists of
code points, so the Python operations len, slice and strip are modelled on
String.data.

Python's list.sort with a key is the unique stable ascending sort; it is
modelled by Mathlib's List.insertionSort with the reflexive order
(less-or-equal on the score), which inserts each element in front of the
first later element that is greater-or-equal, hence keeps equal-score
elements in input order.  Stability is proved below as a filter-preservation
lemma, so the identification with Python's sort is itself checked, not
assumed.
-/

/-- Python helper: len(s) counts code points. -/
def pyLen (s : String) : Nat := s.data.length

/-- Python helper: the slice s[:n] takes the first n code points. -/
def pySlice (s : String) (n : Nat) : String := ⟨s.data.take n⟩

/-- Python helper: str.strip() drops whitespace at both ends. -/
def pyStrip (s : String) : String :=
  ⟨((s.data.dropWhile Char.isWhitespace).reverse.dropWhile Char.isWhitespace).reverse⟩

/-- Metadata dictionary of a langchain Document as used by rag.py.
Every key the code reads is optional, matching dict.get.  The field sec
models the "section" key (section is a Lean keyword). -/
structure Metadata where
  page : Option Nat := none
  paperId : Option String := none
  paperTitle : Option String := none
  chunkId : Option String := none
  sec : Option String := none
  pageStart : Option Nat := none
  pageEnd : Option Nat := none
deriving DecidableEq, Repr

/-- A langchain Document: page content plus metadata. -/
structure Doc where
  page_content : String
  metadata : Metadata
deriving DecidableEq, Repr

/-- A paper record of storage.py's papers.json list.  Keys the code writes
but may omit are optional. -/
structure PaperRec where
  paperId : String
  title : String
  status : String
  chunks : Option Nat := none
  pdfKey : Option String := none
deriving DecidableEq, Repr

/-- A citation dict as built by rag.py's format_citations. -/
structure Citation where
  paperId : String
  paperTitle : String
  sec : Option String
  pageStart : Option Nat
  pageEnd : Option Nat
  chunkId : String
  snippet : String
  text : String
  pdfUrl : Option String
deriving DecidableEq, Repr

/- ===================== storage.py ===================== -/

/-- storage.py upsert_paper: replace the first record with the same paperId
in place, or insert the new record at index 0 (papers.insert(0, paper)). -/
def upsert_paper (papers : List PaperRec) (paper : PaperRec) : List PaperRec :=
  match papers.findIdx? (fun p => p.paperId == paper.paperId) with
  | none => paper :: papers
  | some i => papers.set i paper

/- ===================== rag.py : ingestion ===================== -/

/-- PyPDFLoader().load(): one Document per page, carrying the 0-indexed
page number in its metadata.  The parsed pages are the oracle input. -/
def loadPages (pages : List (Nat × String)) : List Doc :=
  pages.map fun pt => { page_content := pt.2, metadata := { page := some pt.1 } }

/-- RecursiveCharacterTextSplitter.split_documents: each document's text is
split independently (by the splitText oracle) and every resulting chunk
copies the metadata of the document it came from.  Chunks therefore never
span two source documents (pages). -/
def split_documents (splitText : String → List String) (docs : List Doc) : List Doc :=
  docs.flatMap fun d => (splitText d.page_content).map fun t => { page_content := t, metadata := d.metadata }

/-- f-string "c{i:05d}": zero-pad to at least five digits. -/
def chunkIdStr (i : Nat) : String :=
  let s := toString i
  "c" ++ ⟨List.replicate (5 - s.data.length) '0'⟩ ++ s

/-- The metadata stamping loop of ingest_pdf (rag.py lines 34-41), with the
running enumeration index: paperId, paperTitle, chunkId are set, and when
the loader page number is present, pageStart and pageEnd are both set to
page + 1 (1-indexed for display). -/
def stampChunks (paper_id title : String) : Nat → List Doc → List Doc
  | _, [] => []
  | i, d :: ds =>
      let md := d.metadata
      let md1 : Metadata :=
        { md with
          paperId := some paper_id
          paperTitle := some title
          chunkId := some (chunkIdStr i) }
      let md2 : Metadata :=
        match md.page with
        | some p => { md1 with pageStart := some (p + 1), pageEnd := some (p + 1) }
        | none => md1
      { d with metadata := md2 } :: stampChunks paper_id title (i + 1) ds

/-- The persisted index directory, keyed by paper id; save_local overwrites
the directory for that id and leaves the others alone. -/
def setIndex (pid : String) (chunks : List Doc) : List (String × List Doc) → List (String × List Doc)
  | [] => [(pid, chunks)]
  | e :: es => if e.1 == pid then (pid, chunks) :: es else e :: setIndex pid chunks es

/-- Look up the persisted index of one paper id. -/
def lookupIndex (pid : String) (idx : List (String × List Doc)) : Option (List Doc) :=
  (idx.find? (fun e => e.1 == pid)).map (fun e => e.2)

/-- rag.py ingest_pdf: parse the PDF (parsed = none models a parse failure),
split into chunks, stamp citation metadata, embed and build the FAISS index
(embedOk = false models an embedding/build failure), save it under the paper
id, and return the number of chunks.  On any failure nothing is saved and
the exception propagates (none). -/
def ingest_pdf (parsed : Option (List (Nat × String))) (splitText : String → List String)
    (embedOk : Bool) (idx : List (String × List Doc)) (paper_id title : String) :
    Option (Nat × List (String × List Doc)) :=
  match parsed with
  | none => none
  | some pages =>
      let docs := loadPages pages
      let chunks := split_documents splitText docs
      let stamped := stampChunks paper_id title 0 chunks
      if embedOk then some (stamped.length, setIndex paper_id stamped idx) else none

/- ===================== rag.py : retrieval ===================== -/

/-- rag.py line 60: per_paper_k = max(2, k). -/
def per_paper_k (k : Nat) : Nat := max 2 k

/-- The similarity-search oracle: search pid query k models
load_vectorstore(pid).similarity_search_with_score(query, k); the Except
error is a load failure (missing or corrupt index), as load_local raises. -/
abbrev SearchFn := String → String → Nat → Except Unit (List (Doc × Int))

/-- The gathering loop of retrieve (rag.py lines 62-67): for each paper id
in order, load its index and collect the scored documents; a load failure
raises and aborts the remaining iterations. -/
def gatherScored (search : SearchFn) (query : String) (k : Nat) :
    List String → Except Unit (List (Doc × Int))
  | [] => .ok []
  | pid :: rest =>
      match search pid query (per_paper_k k) with
      | .error e => .error e
      | .ok ds =>
          match gatherScored search query k rest with
          | .error e => .error e
          | .ok acc => .ok (ds ++ acc)

/-- Ordering of scored documents by similarity score (lower is closer). -/
def scoreLE (x y : Doc × Int) : Prop := x.2 ≤ y.2

instance : DecidableRel scoreLE := fun x y => inferInstanceAs (Decidable (x.2 ≤ y.2))

instance : IsTotal (Doc × Int) scoreLE := ⟨fun a b => Int.le_total a.2 b.2⟩

instance : IsTrans (Doc × Int) scoreLE := ⟨fun _ _ _ hab hbc => le_trans hab hbc⟩

/-- retrieve up to the projection: gather, stable-sort ascending by score,
take the global top k (rag.py lines 59-70, keeping the scores). -/
def retrieveScored (search : SearchFn) (query : String) (paper_ids : List String) (k : Nat) :
    Except Unit (List (Doc × Int)) :=
  match gatherScored search query k paper_ids with
  | .error e => .error e
  | .ok scored => .ok ((List.insertionSort scoreLE scored).take k)

/-- rag.py retrieve: global top-k across the per-paper indexes, scores
dropped in the returned list (line 71). -/
def retrieve (search : SearchFn) (query : String) (paper_ids : List String) (k : Nat) :
    Except Unit (List Doc) :=
  match retrieveScored search query paper_ids k with
  | .error e => .error e
  | .ok scored => .ok (scored.map Prod.fst)

/- ===================== rag.py : citations and fallback ===================== -/

/-- The citation dict built for one document (the loop body of
format_citations, rag.py lines 77-89). -/
def formatCitation (d : Doc) : Citation :=
  { paperId := (d.metadata.paperId).getD "unknown"
    paperTitle := (d.metadata.paperTitle).getD "unknown"
    sec := d.metadata.sec
    pageStart := d.metadata.pageStart
    pageEnd := d.metadata.pageEnd
    chunkId := (d.metadata.chunkId).getD "unknown"
    snippet := if 160 < pyLen d.page_content
               then pySlice d.page_content 160 ++ "…"
               else d.page_content
    text := d.page_content
    pdfUrl := none }

/-- rag.py format_citations: one citation per document, in order. -/
def format_citations (docs : List Doc) : List Citation :=
  docs.map formatCitation

/-- The page shown in a fallback bullet: md.get("pageStart", "?") rendered
by the f-string. -/
def pageDisp (p : Option Nat) : String :=
  match p with
  | some n => toString n
  | none => "?"

/-- One bullet of answer_extractively (rag.py line 104), numbered n. -/
def mkBullet (n : Nat) (d : Doc) : String :=
  "- Evidence [" ++ toString n ++ "] (p. " ++ pageDisp d.metadata.pageStart ++ "): "
    ++ pySlice (pyStrip d.page_content) 220

/-- The bullet list of answer_extractively: enumerate(docs, start=i). -/
def bullets : Nat → List Doc → List String
  | _, [] => []
  | i, d :: ds => mkBullet i d :: bullets (i + 1) ds

/-- The fixed not-found string of rag.py line 98. -/
def notFoundAnswer : String := "Not found in the provided papers."

/-- rag.py answer_extractively: fixed string on empty evidence, otherwise a
header, one bullet per document (numbered from 1, with its page), a footer. -/
def answer_extractively (_question : String) (docs : List Doc) : String :=
  if docs.isEmpty then notFoundAnswer
  else
    "Evidence-based response (MVP, extractive):\n\n"
      ++ String.intercalate "\n" (bullets 1 docs)
      ++ "\n\nIf you want, I can switch this to a real LLM answer next (still grounded with citations)."

/- ===================== bedrock_llm.py : evidence blocks ===================== -/

/-- The per-chunk text of an evidence block: (c.get("text") or "")
stripped, then hard-capped at 1200 code points (bedrock_llm.py lines 19-21).
A present text field is never falsy-replaced: or "" only maps the empty
string to itself. -/
def chunkText (c : Citation) : String := pySlice (pyStrip c.text) 1200

/-- The provenance pieces of one evidence block (bedrock_llm.py lines
22-31); Python truthiness: an empty title or section is skipped, and the
page range needs a truthy (nonzero) pageEnd different from pageStart. -/
def metaParts (c : Citation) : List String :=
  (if c.paperTitle ≠ "" then [c.paperTitle] else [])
    ++ (match c.sec with
        | some s => if s ≠ "" then ["§ " ++ s] else []
        | none => [])
    ++ (match c.pageStart with
        | some ps =>
            (match c.pageEnd with
             | some pe =>
                 if pe ≠ 0 ∧ pe ≠ ps
                 then ["p. " ++ toString ps ++ "-" ++ toString pe]
                 else ["p. " ++ toString ps]
             | none => ["p. " ++ toString ps])
        | none => [])

/-- " · ".join(meta) if meta else "source" (bedrock_llm.py line 32). -/
def metaStr (c : Citation) : String :=
  if metaParts c = [] then "source" else String.intercalate " · " (metaParts c)

/-- One evidence block: bracketed 1-based label, provenance, newline,
capped chunk text (bedrock_llm.py line 33). -/
def evidenceBlock (i : Nat) (c : Citation) : String :=
  "[" ++ toString i ++ "] " ++ metaStr c ++ "\n" ++ chunkText c

/-- The evidence blocks of generate_answer_nova_micro:
enumerate(citations, start=i), used with i = 1. -/
def evidence_blocks : Nat → List Citation → List String
  | _, [] => []
  | i, c :: cs => evidenceBlock i c :: evidence_blocks (i + 1) cs

/- ===================== main.py ===================== -/

/-- System state the endpoints act on: the papers.json list and the
persisted per-paper index directories. -/
structure Sys where
  papers : List PaperRec
  indexes : List (String × List Doc)
deriving DecidableEq, Repr

/-- main.py line 95: title derived from the upload key. -/
def titleFromKey (s3Key : String) : String :=
  (((s3Key.splitOn "_").getLastD "").replace ".pdf" "").replace "-" " "

/-- The first step of the ingest endpoint (main.py line 98): store the
record with status processing. -/
def ingestMark (sys : Sys) (paper_id title s3Key : String) : Sys :=
  { sys with
    papers := upsert_paper sys.papers
      { paperId := paper_id, title := title, status := "processing", pdfKey := some s3Key } }

/-- main.py ingest endpoint: mark processing, run ingest_pdf; on success
store status indexed with the chunk count, on exception store status failed
(that dict carries no pdfKey) and re-raise. -/
def ingest (sys : Sys) (parsed : Option (List (Nat × String))) (splitText : String → List String)
    (embedOk : Bool) (s3Key paper_id : String) : Sys × Except Unit String :=
  match ingest_pdf parsed splitText embedOk (ingestMark sys paper_id (titleFromKey s3Key) s3Key).indexes
      paper_id (titleFromKey s3Key) with
  | some nIdx =>
      ({ papers := upsert_paper (ingestMark sys paper_id (titleFromKey s3Key) s3Key).papers
           { paperId := paper_id, title := titleFromKey s3Key, status := "indexed",
             chunks := some nIdx.1, pdfKey := some s3Key },
         indexes := nIdx.2 },
       .ok paper_id)
  | none =>
      ({ (ingestMark sys paper_id (titleFromKey s3Key) s3Key) with
         papers := upsert_paper (ingestMark sys paper_id (titleFromKey s3Key) s3Key).papers
           { paperId := paper_id, title := titleFromKey s3Key, status := "failed" } },
       .error ())

/-- The paper ids the chat endpoint queries (main.py lines 112-118): the
literal filter id when it is not "all", otherwise the ids of the records
whose status is indexed. -/
def chatPaperIds (sys : Sys) (paperFilter : String) : List String :=
  if paperFilter ≠ "all" then [paperFilter]
  else ((sys.papers.filter (fun p => p.status == "indexed")).map (fun p => p.paperId))

/-- The citations of the chat response (main.py lines 121-123): formatted
citations with the pdfUrl filled in. -/
def chatCitations (docs : List Doc) : List Citation :=
  (format_citations docs).map
    (fun c => { c with pdfUrl := some ("http://localhost:3001/pdf/" ++ c.paperId) })

/-- The fallible generator oracle (generate_answer_nova_micro). -/
abbrev GenFn := String → List Citation → Except Unit String

/-- main.py chat endpoint: select paper ids by filter, retrieve with k = 6,
format citations, try the generator and fall back to answer_extractively on
any exception.  The only uncaught failure is a retrieval error. -/
def chat (sys : Sys) (search : SearchFn) (gen : GenFn) (question paperFilter : String) :
    Except Unit (String × List Citation) :=
  match retrieve search question (chatPaperIds sys paperFilter) 6 with
  | .error e => .error e
  | .ok docs =>
      let citations := chatCitations docs
      let answer :=
        match gen question citations with
        | .ok a => a
        | .error _ => answer_extractively question docs
      .ok (answer, citations)

/- ===================== helper lemmas : stable sort ===================== -/

/-- Inserting with the reflexive score order places the new element behind
every equal-scored element already present: on each score class, ordered
insertion prepends the new element exactly when it has that score. -/
lemma filter_orderedInsert (s : Int) (x : Doc × Int) :
    ∀ l : List (Doc × Int),
      (List.orderedInsert scoreLE x l).filter (fun y => y.2 == s)
        = (if x.2 == s then [x] else []) ++ l.filter (fun y => y.2 == s)
  | [] => by
      by_cases hx : x.2 = s <;> simp [List.orderedInsert, List.filter_cons, hx]
  | y :: ys => by
      rw [List.orderedInsert]
      by_cases hxy : scoreLE x y
      · rw [if_pos hxy]
        by_cases hx : x.2 = s <;> simp [List.filter_cons, hx]
      · rw [if_neg hxy]
        have ih := filter_orderedInsert s x ys
        by_cases hy : y.2 = s
        · have hx : ¬(x.2 = s) := by
            intro hx
            exact hxy (le_of_eq (hx.trans hy.symm))
          simp [List.filter_cons, hy, hx, ih]
        · by_cases hx : x.2 = s <;> simp [List.filter_cons, hy, hx, ih]

/-- Stability of the modelled Python sort: sorting does not reorder any
score class. -/
lemma filter_insertionSort (s : Int) :
    ∀ l : List (Doc × Int),
      (List.insertionSort scoreLE l).filter (fun y => y.2 == s)
        = l.filter (fun y => y.2 == s)
  | [] => rfl
  | x :: xs => by
      rw [List.insertionSort, filter_orderedInsert s x (List.insertionSort scoreLE xs),
        filter_insertionSort s xs]
      by_cases hx : x.2 = s <;> simp [List.filter_cons, hx]

/- ===================== helper lemmas : gathering ===================== -/

/-- Every scored document gathered by the retrieval loop comes from the
search result of one of the listed paper ids. -/
lemma mem_gatherScored {search : SearchFn} {query : String} {k : Nat} :
    ∀ {pids : List String} {scored : List (Doc × Int)},
      gatherScored search query k pids = .ok scored →
      ∀ x ∈ scored,
        ∃ pid ∈ pids, ∃ res, search pid query (per_paper_k k) = .ok res ∧ x ∈ res := by
  intro pids
  induction pids with
  | nil =>
      intro scored h x hx
      simp only [gatherScored] at h
      cases h
      cases hx
  | cons pid rest ih =>
      intro scored h x hx
      simp only [gatherScored] at h
      cases hs : search pid query (per_paper_k k) with
      | error e => rw [hs] at h; cases h
      | ok ds =>
          rw [hs] at h
          cases hr : gatherScored search query k rest with
          | error e => rw [hr] at h; cases h
          | ok acc =>
              rw [hr] at h
              cases h
              rcases List.mem_append.1 hx with hxl | hxr
              · exact ⟨pid, List.mem_cons_self _ _, ds, hs, hxl⟩
              · rcases ih hr x hxr with ⟨pid', hp', res, hres, hxres⟩
                exact ⟨pid', List.mem_cons_of_mem _ hp', res, hres, hxres⟩

/-- If any listed paper id fails to load, the gathering loop aborts with
that failure. -/
lemma gatherScored_error {search : SearchFn} {query : String} {k : Nat} :
    ∀ {pids : List String},
      (∃ pid ∈ pids, search pid query (per_paper_k k) = .error ()) →
      gatherScored search query k pids = .error () := by
  intro pids
  induction pids with
  | nil => rintro ⟨pid, hmem, _⟩; cases hmem
  | cons pid rest ih =>
      rintro ⟨pid', hmem, herr⟩
      simp only [gatherScored]
      rcases List.mem_cons.1 hmem with rfl | hmem'
      · rw [herr]
      · cases hs : search pid query (per_paper_k k) with
        | error e => rfl
        | ok ds => rw [ih ⟨pid', hmem', herr⟩]

/- ===================== helper lemmas : the paper store ===================== -/

/-- Writing back the element already at a position is the identity. -/
lemma set_get_self {α : Type _} :
    ∀ (l : List α) (i : Nat) (hi : i < l.length), l.set i (l.get ⟨i, hi⟩) = l
  | _ :: _, 0, _ => rfl
  | a :: l, i + 1, hi => by
      simp only [List.set_cons_succ, List.get_eq_getElem, List.getElem_cons_succ]
      have := set_get_self l i (by simpa using hi)
      simp only [List.get_eq_getElem] at this
      exact congrArg (a :: ·) this

/-- With distinct ids, the record with a given id determines the index
found by the linear scan of upsert_paper, for any enumeration offset. -/
lemma findIdx?_paperId {pid : String} :
    ∀ (papers : List PaperRec) (s : Nat),
      (papers.map (fun p => p.paperId)).Nodup →
      ∀ i (hi : i < papers.length), papers[i].paperId = pid →
        List.findIdx? (fun p => p.paperId == pid) papers s = some (s + i)
  | [], _, _, i, hi, _ => absurd hi (by simp)
  | q :: rest, s, hnd, 0, _, hq => by
      simp only [List.getElem_cons_zero] at hq
      simp [List.findIdx?_cons, hq]
  | q :: rest, s, hnd, i + 1, hi, hq => by
      simp only [List.getElem_cons_succ] at hq
      have hirest : i < rest.length := by simpa using hi
      have hnd' : (∀ x ∈ rest, ¬x.paperId = q.paperId)
          ∧ (rest.map (fun p => p.paperId)).Nodup := by simpa using hnd
      have hqne : ¬(q.paperId = pid) := by
        intro he
        exact hnd'.1 rest[i] (List.getElem_mem hirest) (hq.trans he.symm)
      have ih := findIdx?_paperId rest (s + 1) hnd'.2 i hirest hq
      rw [List.findIdx?_cons, if_neg (by simpa using hqne), ih]
      exact congrArg some (by omega)

/-- upsert_paper with an id absent from the store prepends the record. -/
lemma upsert_paper_of_fresh {papers : List PaperRec} {rec : PaperRec}
    (h : ∀ p ∈ papers, p.paperId ≠ rec.paperId) :
    upsert_paper papers rec = rec :: papers := by
  unfold upsert_paper
  have hnone : papers.findIdx? (fun p => p.paperId == rec.paperId) = none :=
    List.findIdx?_eq_none_iff.2 (fun x hx => by simpa using h x hx)
  rw [hnone]

/-- upsert_paper whose id matches the head replaces the head. -/
lemma upsert_paper_head {rec rec' : PaperRec} {papers : List PaperRec}
    (h : rec'.paperId = rec.paperId) :
    upsert_paper (rec :: papers) rec' = rec' :: papers := by
  unfold upsert_paper
  rw [List.findIdx?_cons, if_pos (by simpa using h.symm)]
  rfl

/-- Distinct stored ids make the id a key: two records of the store with
the same id are the same record. -/
lemma paperId_inj {papers : List PaperRec}
    (hnd : (papers.map (fun r => r.paperId)).Nodup)
    {a b : PaperRec} (ha : a ∈ papers) (hb : b ∈ papers)
    (hid : a.paperId = b.paperId) : a = b := by
  by_contra hne
  have hpw : papers.Pairwise (fun x y => x.paperId ≠ y.paperId) :=
    (List.pairwise_map).1 hnd
  have hsymm : Symmetric (fun x y : PaperRec => x.paperId ≠ y.paperId) :=
    fun _ _ h => h.symm
  exact hpw.forall hsymm ha hb hne hid

/- ===================== helper lemmas : enumerated lists ===================== -/

lemma bullets_length : ∀ (i : Nat) (docs : List Doc), (bullets i docs).length = docs.length
  | _, [] => rfl
  | i, _ :: ds => congrArg Nat.succ (bullets_length (i + 1) ds)

lemma bullets_getElem? : ∀ (docs : List Doc) (i j : Nat),
    (bullets i docs)[j]? = (docs[j]?).map (fun d => mkBullet (i + j) d)
  | [], i, j => by simp [bullets]
  | d :: ds, i, 0 => by simp [bullets]
  | d :: ds, i, j + 1 => by
      have h : i + 1 + j = i + (j + 1) := by omega
      simp only [bullets, List.getElem?_cons_succ, bullets_getElem? ds (i + 1) j, h]

lemma evidence_blocks_length :
    ∀ (i : Nat) (cits : List Citation), (evidence_blocks i cits).length = cits.length
  | _, [] => rfl
  | i, _ :: cs => congrArg Nat.succ (evidence_blocks_length (i + 1) cs)

lemma evidence_blocks_getElem? : ∀ (cits : List Citation) (i j : Nat),
    (evidence_blocks i cits)[j]? = (cits[j]?).map (fun c => evidenceBlock (i + j) c)
  | [], i, j => by simp [evidence_blocks]
  | c :: cs, i, 0 => by simp [evidence_blocks]
  | c :: cs, i, j + 1 => by
      have h : i + 1 + j = i + (j + 1) := by omega
      simp only [evidence_blocks, List.getElem?_cons_succ,
        evidence_blocks_getElem? cs (i + 1) j, h]

/- ===================== helper lemmas : retrieval inversion ===================== -/

/-- Every document returned by retrieve was returned (with its score) by
the similarity search of one of the listed paper ids. -/
lemma retrieve_ok_mem {search : SearchFn} {q : String} {pids : List String} {k : Nat}
    {docs : List Doc} (h : retrieve search q pids k = .ok docs) :
    ∀ d ∈ docs, ∃ pid ∈ pids, ∃ res,
      search pid q (per_paper_k k) = .ok res ∧ ∃ sc : Int, (d, sc) ∈ res := by
  intro d hd
  unfold retrieve retrieveScored at h
  cases hg : gatherScored search q k pids with
  | error e => rw [hg] at h; cases h
  | ok scored =>
      rw [hg] at h
      cases h
      rcases List.mem_map.1 hd with ⟨x, hx, hxd⟩
      have hx2 : x ∈ List.insertionSort scoreLE scored :=
        List.take_subset k _ hx
      have hx3 : x ∈ scored := (List.mem_insertionSort scoreLE).1 hx2
      rcases mem_gatherScored hg x hx3 with ⟨pid, hpid, res, hres, hxres⟩
      subst hxd
      exact ⟨pid, hpid, res, hres, x.2, by simpa using hxres⟩

/- ===================== concrete fixtures ===================== -/

/-- A concrete stamped chunk of paper p1, used in witnesses. -/
def cDoc1 : Doc :=
  { page_content := "alpha beta"
    metadata :=
      { page := some 0, paperId := some "p1", paperTitle := some "T1"
        chunkId := some "c00000", pageStart := some 1, pageEnd := some 1 } }

/-- A store holding exactly one paper, p1, with status failed, whose index
directory still exists on disk. -/
def cSysFailed : Sys :=
  { papers := [{ paperId := "p1", title := "T1", status := "failed" }]
    indexes := [("p1", [cDoc1])] }

/-- A search oracle whose p1 index loads and returns one chunk. -/
def cSearch : SearchFn :=
  fun pid _q _k => if pid = "p1" then .ok [(cDoc1, 0)] else .ok []

/-- A generator oracle that always raises. -/
def cGenFail : GenFn := fun _ _ => .error ()

/-- A search oracle where the index of id bad fails to load and every other
id returns one chunk. -/
def cSearch2 : SearchFn :=
  fun pid _q _k => if pid = "bad" then .error () else .ok [(cDoc1, 0)]

/-- The empty system state. -/
def sysEmpty : Sys := { papers := [], indexes := [] }

/-- A search oracle that always loads and returns nothing. -/
def searchEmpty : SearchFn := fun _ _ _ => .ok []

/- ===================== claim theorems ===================== -/

/-- Claim C6: format_citations is a pure, order- and length-preserving
function: the i-th output citation is the projection of the i-th input
chunk; a missing optional section renders as absent (the none of the
metadata passes through); the snippet equals the chunk text when it has at
most 160 characters, otherwise its first 160 characters with the
truncation marker appended. -/
theorem format_citations_spec (docs : List Doc) :
    (format_citations docs).length = docs.length
    ∧ (∀ i : Nat, (format_citations docs)[i]? = (docs[i]?).map formatCitation)
    ∧ (∀ d : Doc, (formatCitation d).sec = d.metadata.sec)
    ∧ (∀ d : Doc, (formatCitation d).snippet =
        if pyLen d.page_content ≤ 160 then d.page_content
        else pySlice d.page_content 160 ++ "…") := by
  refine ⟨by simp [format_citations], fun i => by simp [format_citations],
    fun d => rfl, fun d => ?_⟩
  simp only [formatCitation]
  by_cases h : pyLen d.page_content ≤ 160
  · rw [if_neg (by omega), if_pos h]
  · rw [if_pos (by omega), if_neg h]

/-- Claim C7: answer_extractively is a total function; on an empty evidence
list it returns the fixed not-found string; on non-empty evidence it
returns the fixed header, one bullet per evidence chunk joined by
newlines, and the fixed footer, where the j-th bullet is numbered 1 + j
and carries the page reference of the j-th chunk. -/
theorem answer_extractively_spec :
    (∀ q : String, answer_extractively q [] = notFoundAnswer)
    ∧ (∀ (q : String) (docs : List Doc), docs ≠ [] →
        answer_extractively q docs =
          "Evidence-based response (MVP, extractive):\n\n"
            ++ String.intercalate "\n" (bullets 1 docs)
            ++ "\n\nIf you want, I can switch this to a real LLM answer next (still grounded with citations).")
    ∧ (∀ (i : Nat) (docs : List Doc), (bullets i docs).length = docs.length)
    ∧ (∀ (j : Nat) (docs : List Doc),
        (bullets 1 docs)[j]? = (docs[j]?).map (fun d => mkBullet (1 + j) d))
    ∧ (∀ (n : Nat) (d : Doc), mkBullet n d =
        "- Evidence [" ++ toString n ++ "] (p. " ++ pageDisp d.metadata.pageStart ++ "): "
          ++ pySlice (pyStrip d.page_content) 220) := by
  refine ⟨fun q => rfl, fun q docs h => ?_, bullets_length,
    fun j docs => bullets_getElem? docs 1 j, fun n d => rfl⟩
  unfold answer_extractively
  rw [if_neg (by simpa using h)]

/-- Witness for C7 at a concrete non-empty evidence list. -/
theorem answer_extractively_spec_witness :
    ([cDoc1] ≠ ([] : List Doc))
    ∧ answer_extractively "q" [cDoc1] =
        "Evidence-based response (MVP, extractive):\n\n"
          ++ String.intercalate "\n" (bullets 1 [cDoc1])
          ++ "\n\nIf you want, I can switch this to a real LLM answer next (still grounded with citations)." :=
  ⟨by decide, answer_extractively_spec.2.1 "q" [cDoc1] (by decide)⟩

/-- Claim C9: the evidence blocks handed to the generator are one per
citation in order; the j-th block (with enumeration starting at 1) is
labeled with its 1-based index 1 + j and the provenance string, and
carries the stripped chunk text hard-truncated to at most 1200 characters
(a prefix of the stripped text of length min 1200 its length). -/
theorem evidence_blocks_spec :
    (∀ (i : Nat) (cits : List Citation), (evidence_blocks i cits).length = cits.length)
    ∧ (∀ (j : Nat) (cits : List Citation),
        (evidence_blocks 1 cits)[j]? = (cits[j]?).map (fun c => evidenceBlock (1 + j) c))
    ∧ (∀ (i : Nat) (c : Citation),
        evidenceBlock i c = "[" ++ toString i ++ "] " ++ metaStr c ++ "\n" ++ chunkText c)
    ∧ (∀ c : Citation, pyLen (chunkText c) = min 1200 (pyLen (pyStrip c.text)))
    ∧ (∀ c : Citation, ∃ rest : List Char,
        (chunkText c).data ++ rest = (pyStrip c.text).data) := by
  refine ⟨evidence_blocks_length, fun j cits => evidence_blocks_getElem? cits 1 j,
    fun i c => rfl, fun c => ?_, fun c => ⟨(pyStrip c.text).data.drop 1200, ?_⟩⟩
  · simp [chunkText, pySlice, pyLen]
  · simp only [chunkText, pySlice]
    exact List.take_append_drop 1200 (pyStrip c.text).data

/-- Claim C10: upsert_paper keeps at most one record per paperId: when the
stored ids are distinct, the result's ids are distinct; a record with a
fresh paperId is inserted at the front; a record whose paperId is stored
at position i replaces that record in place, keeping the length and every
other position unchanged. -/
theorem upsert_paper_spec (papers : List PaperRec) (p : PaperRec)
    (hnd : (papers.map (fun q => q.paperId)).Nodup) :
    ((upsert_paper papers p).map (fun q => q.paperId)).Nodup
    ∧ ((∀ q ∈ papers, q.paperId ≠ p.paperId) → upsert_paper papers p = p :: papers)
    ∧ (∀ i (hi : i < papers.length), papers[i].paperId = p.paperId →
        upsert_paper papers p = papers.set i p
        ∧ (papers.set i p).length = papers.length
        ∧ (papers.set i p)[i]? = some p
        ∧ ∀ j : Nat, j ≠ i → (papers.set i p)[j]? = papers[j]?) := by
  have hrepl : ∀ i (hi : i < papers.length), papers[i].paperId = p.paperId →
      upsert_paper papers p = papers.set i p := by
    intro i hi hpid
    unfold upsert_paper
    rw [show papers.findIdx? (fun q => q.paperId == p.paperId) = some i from by
      simpa using findIdx?_paperId papers 0 hnd i hi hpid]
  refine ⟨?_, upsert_paper_of_fresh,
    fun i hi hpid => ⟨hrepl i hi hpid, by simp,
      List.getElem?_set_self hi, fun j hj => List.getElem?_set_ne (fun he => hj he.symm)⟩⟩
  by_cases hex : ∀ q ∈ papers, q.paperId ≠ p.paperId
  · rw [upsert_paper_of_fresh hex]
    simp only [List.map_cons]
    refine List.nodup_cons.2 ⟨?_, hnd⟩
    intro hmem
    rcases List.mem_map.1 hmem with ⟨q, hq, hqid⟩
    exact hex q hq hqid
  · push_neg at hex
    rcases hex with ⟨q, hq, hqid⟩
    rcases List.mem_iff_getElem.1 hq with ⟨i, hi, rfl⟩
    rw [hrepl i hi hqid, List.map_set]
    have hi' : i < (papers.map (fun r => r.paperId)).length := by simpa using hi
    have hmi : p.paperId = (papers.map (fun r => r.paperId)).get ⟨i, hi'⟩ := by
      simp [hqid.symm]
    rw [hmi, set_get_self (papers.map fun r => r.paperId) i hi']
    exact hnd

/-- Witness for C10 at a concrete store with distinct ids. -/
theorem upsert_paper_spec_witness :
    (([{ paperId := "p1", title := "T1", status := "indexed" }] :
        List PaperRec).map (fun q => q.paperId)).Nodup
    ∧ ((upsert_paper [{ paperId := "p1", title := "T1", status := "indexed" }]
          { paperId := "p2", title := "T2", status := "processing" }).map
        (fun q => q.paperId)).Nodup :=
  ⟨by decide,
   (upsert_paper_spec [{ paperId := "p1", title := "T1", status := "indexed" }]
      { paperId := "p2", title := "T2", status := "processing" } (by decide)).1⟩

/-- Claim C3: with every listed index loading successfully, retrieve
returns exactly min k (number of gathered candidates) chunks, sorted by
non-decreasing score, each score class kept in gathered (document
iteration, then local rank) order; and an empty id list yields an empty
result with no error. -/
theorem retrieve_ranking (search : SearchFn) (q : String) (pids : List String) (k : Nat)
    (scored : List (Doc × Int)) (hg : gatherScored search q k pids = .ok scored) :
    (retrieve search q [] k = .ok [])
    ∧ ∃ outS : List (Doc × Int),
        retrieveScored search q pids k = .ok outS
        ∧ retrieve search q pids k = .ok (outS.map Prod.fst)
        ∧ outS.length = min k scored.length
        ∧ outS.Sorted scoreLE
        ∧ (∀ s : Int, ∃ rest,
            (outS.filter (fun y => y.2 == s)) ++ rest
              = scored.filter (fun y => y.2 == s)) := by
  refine ⟨?_, (List.insertionSort scoreLE scored).take k, ?_, ?_, ?_, ?_, ?_⟩
  · simp [retrieve, retrieveScored, gatherScored, List.insertionSort]
  · unfold retrieveScored
    rw [hg]
  · unfold retrieve retrieveScored
    rw [hg]
  · rw [List.length_take, List.length_insertionSort]
  · exact List.Pairwise.sublist (List.take_sublist k _)
      (List.sorted_insertionSort scoreLE scored)
  · intro s
    refine ⟨((List.insertionSort scoreLE scored).drop k).filter (fun y => y.2 == s), ?_⟩
    rw [← List.filter_append, List.take_append_drop, filter_insertionSort]

/-- A candidate chunk of paper a, far from the query (score 3). -/
def wDocA1 : Doc := { page_content := "a1", metadata := {} }

/-- A candidate chunk of paper a, close to the query (score 1). -/
def wDocA2 : Doc := { page_content := "a2", metadata := {} }

/-- A candidate chunk of paper b, tied with wDocA2 (score 1). -/
def wDocB1 : Doc := { page_content := "b1", metadata := {} }

/-- A two-paper search oracle with a cross-paper tie. -/
def wSearch : SearchFn :=
  fun pid _q _k => if pid = "a" then .ok [(wDocA1, 3), (wDocA2, 1)] else .ok [(wDocB1, 1)]

/-- Witness for C3 at a concrete two-paper scenario with a tie. -/
theorem retrieve_ranking_witness :
    gatherScored wSearch "q" 2 ["a", "b"]
        = .ok [(wDocA1, 3), (wDocA2, 1), (wDocB1, 1)]
    ∧ ((retrieve wSearch "q" [] 2 = .ok [])
       ∧ ∃ outS : List (Doc × Int),
           retrieveScored wSearch "q" ["a", "b"] 2 = .ok outS
           ∧ retrieve wSearch "q" ["a", "b"] 2 = .ok (outS.map Prod.fst)
           ∧ outS.length
               = min 2 ([(wDocA1, 3), (wDocA2, 1), (wDocB1, 1)] : List (Doc × Int)).length
           ∧ outS.Sorted scoreLE
           ∧ (∀ s : Int, ∃ rest,
               (outS.filter (fun y => y.2 == s)) ++ rest
                 = ([(wDocA1, 3), (wDocA2, 1), (wDocB1, 1)] : List (Doc × Int)).filter
                     (fun y => y.2 == s))) :=
  ⟨rfl, retrieve_ranking wSearch "q" ["a", "b"] 2 [(wDocA1, 3), (wDocA2, 1), (wDocB1, 1)] rfl⟩

/-- The metadata written for the chunk enumerated at position n. -/
def stampMeta (pid title : String) (n : Nat) (md : Metadata) : Metadata :=
  match md.page with
  | some p =>
      { md with
        paperId := some pid
        paperTitle := some title
        chunkId := some (chunkIdStr n)
        pageStart := some (p + 1)
        pageEnd := some (p + 1) }
  | none =>
      { md with
        paperId := some pid
        paperTitle := some title
        chunkId := some (chunkIdStr n) }

/-- The head of stampChunks in closed form. -/
lemma stampChunks_cons (pid title : String) (n : Nat) (d : Doc) (ds : List Doc) :
    stampChunks pid title n (d :: ds) =
      { d with metadata := stampMeta pid title n d.metadata }
        :: stampChunks pid title (n + 1) ds := by
  simp only [stampChunks, stampMeta]

/-- Every stamped chunk whose source carried a loader page number gets both
page stamps equal to that page number plus one. -/
lemma stampChunks_page {pid title : String} :
    ∀ (n : Nat) (chunks : List Doc) (c : Doc), c ∈ stampChunks pid title n chunks →
      (∀ d ∈ chunks, ∃ p, d.metadata.page = some p) →
      ∃ p, c.metadata.pageStart = some (p + 1) ∧ c.metadata.pageEnd = some (p + 1)
  | _, [], c, hc, _ => absurd hc (List.not_mem_nil c)
  | n, d :: ds, c, hc, hall => by
      rw [stampChunks_cons] at hc
      rcases List.mem_cons.1 hc with rfl | hc'
      · rcases hall d (List.mem_cons_self d ds) with ⟨p, hp⟩
        exact ⟨p, by simp [stampMeta, hp], by simp [stampMeta, hp]⟩
      · exact stampChunks_page (n + 1) ds c hc'
          (fun d' hd' => hall d' (List.mem_cons_of_mem d hd'))

/-- Chunks inherit the metadata of the page document they were split from. -/
lemma mem_split_documents {splitText : String → List String} {docs : List Doc} {c : Doc}
    (hc : c ∈ split_documents splitText docs) : ∃ d ∈ docs, c.metadata = d.metadata := by
  rcases List.mem_flatMap.1 hc with ⟨d, hd, hcd⟩
  rcases List.mem_map.1 hcd with ⟨t, ht, rfl⟩
  exact ⟨d, hd, rfl⟩

/-- Claim C8: every chunk produced by the ingestion pipeline carries equal,
1-indexed page stamps (loader page plus one).  In particular its page-start
equals its page-end: chunks are split per page document and never span two
pages, so the clause about multi-page chunks holds vacuously. -/
theorem ingestion_page_stamp (pages : List (Nat × String)) (splitText : String → List String)
    (pid title : String) (c : Doc)
    (hc : c ∈ stampChunks pid title 0 (split_documents splitText (loadPages pages))) :
    c.metadata.pageStart = c.metadata.pageEnd
    ∧ ∃ p : Nat, c.metadata.pageStart = some (p + 1) ∧ c.metadata.pageEnd = some (p + 1)
        ∧ 1 ≤ p + 1 := by
  have hall : ∀ d ∈ split_documents splitText (loadPages pages),
      ∃ p, d.metadata.page = some p := by
    intro d hd
    rcases mem_split_documents hd with ⟨d0, hd0, hmeta⟩
    rcases List.mem_map.1 hd0 with ⟨pt, hpt, rfl⟩
    exact ⟨pt.1, by rw [hmeta]⟩
  rcases stampChunks_page 0 _ c hc hall with ⟨p, h1, h2⟩
  exact ⟨h1.trans h2.symm, p, h1, h2, Nat.le_add_left 1 p⟩

/-- The single chunk produced by ingesting a one-page document whose
splitter returns the page text unchanged. -/
def wChunk : Doc :=
  { page_content := "hello"
    metadata :=
      { page := some 0, paperId := some "p", paperTitle := some "t"
        chunkId := some "c00000", pageStart := some 1, pageEnd := some 1 } }

/-- Witness for C8 on a concrete one-page ingestion. -/
theorem ingestion_page_stamp_witness :
    (wChunk ∈ stampChunks "p" "t" 0 (split_documents (fun s => [s]) (loadPages [(0, "hello")])))
    ∧ (wChunk.metadata.pageStart = wChunk.metadata.pageEnd
       ∧ ∃ p : Nat, wChunk.metadata.pageStart = some (p + 1)
           ∧ wChunk.metadata.pageEnd = some (p + 1) ∧ 1 ≤ p + 1) :=
  ⟨by decide,
   ingestion_page_stamp [(0, "hello")] (fun s => [s]) "p" "t" wChunk (by decide)⟩

/-- Claim C5: once retrieval has succeeded, the chat endpoint cannot fail:
it returns an answer for every generator outcome, and when the generator
raises, the answer is the deterministic extractive fallback over the
retrieved chunks. -/
theorem chat_generation_fallback (sys : Sys) (search : SearchFn) (gen : GenFn)
    (q f : String) (docs : List Doc)
    (hret : retrieve search q (chatPaperIds sys f) 6 = .ok docs) :
    (∃ r, chat sys search gen q f = .ok r)
    ∧ (gen q (chatCitations docs) = .error () →
        chat sys search gen q f = .ok (answer_extractively q docs, chatCitations docs)) := by
  unfold chat
  rw [hret]
  refine ⟨⟨_, rfl⟩, fun hgen => ?_⟩
  show Except.ok
      ((match gen q (chatCitations docs) with
        | .ok a => a
        | .error _ => answer_extractively q docs), chatCitations docs) = _
  rw [hgen]

/-- Witness for C5: empty store, generator that raises. -/
theorem chat_generation_fallback_witness :
    retrieve searchEmpty "q" (chatPaperIds sysEmpty "all") 6 = .ok []
    ∧ ((∃ r, chat sysEmpty searchEmpty cGenFail "q" "all" = .ok r)
       ∧ (cGenFail "q" (chatCitations []) = .error () →
           chat sysEmpty searchEmpty cGenFail "q" "all"
             = .ok (answer_extractively "q" [], chatCitations []))) :=
  ⟨rfl, chat_generation_fallback sysEmpty searchEmpty cGenFail "q" "all" [] rfl⟩

/-- Claim C4: the ingest endpoint first stores the record with status
processing; when the pipeline returns a chunk count the stored status
becomes indexed with that count; when the pipeline raises the stored
status becomes failed, the exception propagates, and (the paper id being
fresh) no index for it is loadable. -/
theorem ingest_status_spec (sys : Sys) (parsed : Option (List (Nat × String)))
    (splitText : String → List String) (embedOk : Bool) (s3Key pid : String)
    (hfreshP : ∀ p ∈ sys.papers, p.paperId ≠ pid)
    (hfreshI : lookupIndex pid sys.indexes = none) :
    ((ingestMark sys pid (titleFromKey s3Key) s3Key).papers.find? (fun p => p.paperId == pid)
        = some { paperId := pid, title := titleFromKey s3Key, status := "processing",
                 pdfKey := some s3Key })
    ∧ (∀ (n : Nat) (idx' : List (String × List Doc)),
        ingest_pdf parsed splitText embedOk (ingestMark sys pid (titleFromKey s3Key) s3Key).indexes
            pid (titleFromKey s3Key) = some (n, idx') →
        (ingest sys parsed splitText embedOk s3Key pid).2 = .ok pid
        ∧ (ingest sys parsed splitText embedOk s3Key pid).1.papers.find?
            (fun p => p.paperId == pid)
            = some { paperId := pid, title := titleFromKey s3Key, status := "indexed",
                     chunks := some n, pdfKey := some s3Key })
    ∧ (ingest_pdf parsed splitText embedOk (ingestMark sys pid (titleFromKey s3Key) s3Key).indexes
            pid (titleFromKey s3Key) = none →
        (ingest sys parsed splitText embedOk s3Key pid).2 = .error ()
        ∧ (ingest sys parsed splitText embedOk s3Key pid).1.papers.find?
            (fun p => p.paperId == pid)
            = some { paperId := pid, title := titleFromKey s3Key, status := "failed" }
        ∧ lookupIndex pid (ingest sys parsed splitText embedOk s3Key pid).1.indexes = none) := by
  have hmark : (ingestMark sys pid (titleFromKey s3Key) s3Key).papers
      = { paperId := pid, title := titleFromKey s3Key, status := "processing",
          pdfKey := some s3Key } :: sys.papers := by
    unfold ingestMark
    exact upsert_paper_of_fresh hfreshP
  refine ⟨?_, fun n idx' hpdf => ?_, fun hpdf => ?_⟩
  · rw [hmark]
    exact List.find?_cons_of_pos _ (by simp)
  · unfold ingest
    rw [hpdf]
    refine ⟨rfl, ?_⟩
    show (upsert_paper (ingestMark sys pid (titleFromKey s3Key) s3Key).papers _).find? _ = _
    rw [hmark]
    simp [upsert_paper]
  · unfold ingest
    rw [hpdf]
    refine ⟨rfl, ?_, ?_⟩
    · show (upsert_paper (ingestMark sys pid (titleFromKey s3Key) s3Key).papers _).find? _ = _
      rw [hmark]
      simp [upsert_paper]
    · exact hfreshI

/-- Witness for C4: fresh id, parse failure; the record ends failed and no
index for the id is loadable. -/
theorem ingest_status_spec_witness :
    (ingest sysEmpty none (fun s => [s]) true "a_doc-1.pdf" "pid").2 = .error ()
    ∧ (ingest sysEmpty none (fun s => [s]) true "a_doc-1.pdf" "pid").1.papers.find?
        (fun p => p.paperId == "pid")
        = some { paperId := "pid", title := titleFromKey "a_doc-1.pdf", status := "failed" }
    ∧ lookupIndex "pid" (ingest sysEmpty none (fun s => [s]) true "a_doc-1.pdf" "pid").1.indexes
        = none :=
  (ingest_status_spec sysEmpty none (fun s => [s]) true "a_doc-1.pdf" "pid"
    (fun p hp => absurd hp (List.not_mem_nil p)) rfl).2.2 rfl

/-- Counterexample to claim C1 as stated: in a store whose only paper p1
has status failed while its index is still loadable, the chat endpoint
under the single-document filter p1 returns a citation of p1. -/
theorem chat_failed_isolation_counterexample :
    ((cSysFailed.papers.find? (fun p => p.paperId == "p1")).map (fun p => p.status)
        = some "failed")
    ∧ (chat cSysFailed cSearch cGenFail "q" "p1").map (fun r => r.2.map (fun c => c.paperId))
        = .ok ["p1"] :=
  ⟨rfl, rfl⟩

/-- Claim C1 amended: under the "all" filter a failed document never
contributes chunks (given per-document indexes only return their own
document's chunks and stored ids are distinct); under a single-document
filter the store is ignored entirely, so the named id is queried
regardless of its status. -/
theorem chat_failed_isolation_amended (sys : Sys) (search : SearchFn) (gen : GenFn)
    (q : String) (p : PaperRec)
    (hOwn : ∀ pid k res, search pid q k = .ok res →
        ∀ x ∈ res, x.1.metadata.paperId = some pid)
    (hnd : (sys.papers.map (fun r => r.paperId)).Nodup)
    (hp : p ∈ sys.papers) (hfail : p.status = "failed") :
    (∀ ans cits, chat sys search gen q "all" = .ok (ans, cits) →
        ∀ c ∈ cits, c.paperId ≠ p.paperId)
    ∧ (∀ f : String, f ≠ "all" →
        chat sys search gen q f = chat sysEmpty search gen q f) := by
  constructor
  · intro ans cits hok c hc hcp
    unfold chat at hok
    cases hret : retrieve search q (chatPaperIds sys "all") 6 with
    | error e => rw [hret] at hok; cases hok
    | ok docs =>
        rw [hret] at hok
        have hcits : cits = chatCitations docs := (Prod.mk.injEq .. ▸ Except.ok.inj hok).2.symm
        rw [hcits] at hc
        rcases List.mem_map.1 hc with ⟨c0, hc0, rfl⟩
        rcases List.mem_map.1 hc0 with ⟨d, hd, rfl⟩
        rcases retrieve_ok_mem hret d hd with ⟨pid, hpid, res, hres, sc, hmem⟩
        have hdid : d.metadata.paperId = some pid := hOwn pid (per_paper_k 6) res hres (d, sc) hmem
        have hcid : (formatCitation d).paperId = pid := by
          simp [formatCitation, hdid]
        have hpidmem : pid ∈ chatPaperIds sys "all" := hpid
        have : pid ∈ (sys.papers.filter (fun r => r.status == "indexed")).map
            (fun r => r.paperId) := by
          simpa [chatPaperIds] using hpidmem
        rcases List.mem_map.1 this with ⟨rec, hrecmem, hrecid⟩
        have hrecfilter := List.mem_filter.1 hrecmem
        have hrecstatus : rec.status = "indexed" := by simpa using hrecfilter.2
        have hpidp : pid = p.paperId := by
          rw [← hcid]
          exact hcp
        have hrec_eq_p : rec = p :=
          paperId_inj hnd hrecfilter.1 hp (hrecid.trans hpidp)
        rw [hrec_eq_p, hfail] at hrecstatus
        exact absurd hrecstatus (by decide)
  · intro f hf
    unfold chat
    rw [show chatPaperIds sys f = chatPaperIds sysEmpty f from by simp [chatPaperIds, hf]]

/-- Witness for the amended C1: a failed paper in the store, a loadable
index, a single-document filter; the store is ignored. -/
theorem chat_failed_isolation_amended_witness :
    chat cSysFailed cSearch cGenFail "q" "p1" = chat sysEmpty cSearch cGenFail "q" "p1" :=
  (chat_failed_isolation_amended cSysFailed cSearch cGenFail "q"
      { paperId := "p1", title := "T1", status := "failed" }
      (by
        intro pid k res h x hx
        by_cases hpid : pid = "p1"
        · subst hpid
          simp only [cSearch, if_pos rfl] at h
          cases h
          rcases List.mem_singleton.1 hx with rfl
          rfl
        · simp only [cSearch, if_neg hpid] at h
          cases h
          cases hx)
      (by decide) (by decide) rfl).2 "p1" (by decide)

/-- Counterexample to claim C2 as stated: the index of id bad fails to
load while id good yields a chunk, yet retrieve aborts the whole query
instead of returning the good document's results. -/
theorem retrieve_degrade_counterexample :
    cSearch2 "good" "q" (per_paper_k 6) = .ok [(cDoc1, 0)]
    ∧ retrieve cSearch2 "q" ["good", "bad"] 6 = .error () :=
  ⟨rfl, rfl⟩

/-- Claim C2 amended: when the index of any listed document fails to load,
retrieve propagates the failure: the whole query aborts and no results
from the other documents are returned. -/
theorem retrieve_load_failure_aborts (search : SearchFn) (q : String) (pids : List String)
    (k : Nat) (h : ∃ pid ∈ pids, search pid q (per_paper_k k) = .error ()) :
    retrieve search q pids k = .error () := by
  unfold retrieve retrieveScored
  rw [gatherScored_error h]

/-- Witness for the amended C2. -/
theorem retrieve_load_failure_aborts_witness :
    cSearch2 "bad" "q" (per_paper_k 6) = .error ()
    ∧ retrieve cSearch2 "q" ["good", "bad"] 6 = .error () :=
  ⟨rfl, retrieve_load_failure_aborts cSearch2 "q" ["good", "bad"] 6
    ⟨"bad", by decide, rfl⟩⟩
